import Mathlib

/- Verification of the ChatGroove chat and message store.  The definitions
below are a shallow embedding of the storage layer (server/storage.ts,
DatabaseStorage) together with the parallel in-memory backend (MemoryStorage)
and the HTTP route handlers (server/routes.ts) that the verified properties
mention.  JavaScript Maps are rendered as association lists in insertion
order, Date timestamps as natural numbers supplied by the caller, and the
generated string ids as natural numbers drawn from the same counters the
source keeps.  Fields that no verified operation consults (display names,
media urls, presence flags, ...) are omitted from the records. -/

namespace ChatGroove

/-- Account role, the values of the role column of the users table. -/
inductive Role where
  | user
  | moderator
  | admin
deriving DecidableEq, Repr

/-- An account row, reduced to the fields the verified operations consult. -/
structure User where
  id : Nat
  role : Role
deriving DecidableEq, Repr

/-- One entry of a message's readBy array. -/
structure ReadReceipt where
  userId : Nat
  readAt : Nat
deriving DecidableEq, Repr

/-- A message row of the messages table. -/
structure Message where
  id : Nat
  chatId : Nat
  senderId : Nat
  content : Option String
  replyToId : Option Nat
  readBy : List ReadReceipt
  createdAt : Nat
deriving DecidableEq, Repr

/-- A chat row of the chats table. -/
structure Chat where
  id : Nat
  isGroup : Bool
  isGlobalRoom : Bool
  maxMembers : Nat
  isPublic : Bool
  createdBy : Nat
  participants : List Nat
  createdAt : Nat
  updatedAt : Nat
deriving DecidableEq, Repr

/-- The whole store: the users, chats and messages collections plus the id
counters of the in-memory backend. -/
structure State where
  users : List User
  chats : List Chat
  messages : List Message
  chatIdCounter : Nat
  messageIdCounter : Nat
deriving DecidableEq, Repr

/-- MemoryStorage.getUser restricted to existence: users.get(id) is defined. -/
def userExists (s : State) (uid : Nat) : Bool :=
  (s.users.find? (fun u => u.id == uid)).isSome

/-- Lookup of a chat row by id, chats.get(id) of MemoryStorage and the
select-by-id query of DatabaseStorage. -/
def getChat (s : State) (chatId : Nat) : Option Chat :=
  s.chats.find? (fun c => c.id == chatId)

/-- DatabaseStorage.getMessageById, the select-by-id query on messages. -/
def getMessageById (s : State) (mid : Nat) : Option Message :=
  s.messages.find? (fun m => m.id == mid)

/-- The lookup predicate of getOrCreateDirectChat: not a group, not a global
room, exactly two participants, and both given users are participants.  This
is the find condition of MemoryStorage.getOrCreateDirectChat and the
containment-plus-length where-clause of DatabaseStorage.getOrCreateDirectChat. -/
def isDirectCandidate (u1 u2 : Nat) (c : Chat) : Bool :=
  !c.isGroup && !c.isGlobalRoom && c.participants.length == 2 &&
    c.participants.contains u1 && c.participants.contains u2

/-- getOrCreateDirectChat of both backends: return the first stored chat
matching the direct-pair lookup; otherwise insert a fresh two-member chat
with the callers as participants and return it.  No same-user validation is
performed anywhere on this path (storage or the route handler). -/
def getOrCreateDirectChat (s : State) (u1 u2 t : Nat) : State × Chat :=
  match s.chats.find? (isDirectCandidate u1 u2) with
  | some c => (s, c)
  | none =>
      let c : Chat :=
        { id := s.chatIdCounter, isGroup := false, isGlobalRoom := false,
          maxMembers := 2, isPublic := false, createdBy := u1,
          participants := [u1, u2], createdAt := t, updatedAt := t }
      ({ s with chats := s.chats ++ [c], chatIdCounter := s.chatIdCounter + 1 }, c)

/-- MemoryStorage.joinChat, also DatabaseStorage.addChatParticipant: if the
chat exists and the user is not yet a participant, append the user and bump
updatedAt.  Neither backend consults maxMembers. -/
def joinChat (s : State) (chatId uid t : Nat) : State :=
  match getChat s chatId with
  | none => s
  | some c =>
      if c.participants.contains uid then s
      else
        let c' := { c with participants := c.participants ++ [uid], updatedAt := t }
        { s with chats := s.chats.map (fun d => if d.id == chatId then c' else d) }

/-- The per-message body of markChatMessagesAsRead: if the message belongs to
the chat and its readBy array does not yet mention the user, append a read
receipt, else leave the message alone. -/
def markOne (chatId uid t : Nat) (m : Message) : Message :=
  if m.chatId == chatId && (m.readBy.find? (fun r => r.userId == uid)).isNone then
    { m with readBy := m.readBy ++ [{ userId := uid, readAt := t }] }
  else m

/-- markChatMessagesAsRead of both backends: apply the per-message read-mark
to every stored message. -/
def markChatMessagesAsRead (s : State) (chatId uid t : Nat) : State :=
  { s with messages := s.messages.map (markOne chatId uid t) }

/-- MemoryStorage.createMessage: insert the message with an empty readBy
array; the owning chat row is not touched. -/
def memCreateMessage (s : State) (chatId senderId : Nat) (content : Option String)
    (replyToId : Option Nat) (t : Nat) : State × Message :=
  let m : Message :=
    { id := s.messageIdCounter, chatId := chatId, senderId := senderId,
      content := content, replyToId := replyToId, readBy := [], createdAt := t }
  ({ s with messages := s.messages ++ [m], messageIdCounter := s.messageIdCounter + 1 }, m)

/-- DatabaseStorage.createMessage: insert the message, then set the owning
chat's updatedAt to the current time. -/
def createMessage (s : State) (chatId senderId : Nat) (content : Option String)
    (replyToId : Option Nat) (t : Nat) : State × Message :=
  let m : Message :=
    { id := s.messageIdCounter, chatId := chatId, senderId := senderId,
      content := content, replyToId := replyToId, readBy := [], createdAt := t }
  ({ s with
      messages := s.messages ++ [m],
      chats := s.chats.map (fun c => if c.id == chatId then { c with updatedAt := t } else c),
      messageIdCounter := s.messageIdCounter + 1 }, m)

/-- Typed rendering of the failure statuses the route handlers return. -/
inductive ApiError where
  | chatNotFound
  | accessDenied
deriving DecidableEq, Repr

/-- The send-message route handler (POST on a chat's messages): 404 when the
chat id is unknown, 403 when the sender is neither a participant nor the chat
a global room, otherwise DatabaseStorage.createMessage.  The error branches
return before any storage write. -/
def sendMessageRoute (s : State) (chatId senderId : Nat) (content : Option String)
    (replyToId : Option Nat) (t : Nat) : State × Except ApiError Message :=
  match getChat s chatId with
  | none => (s, .error .chatNotFound)
  | some c =>
      if !c.isGlobalRoom && !c.participants.contains senderId then
        (s, .error .accessDenied)
      else
        let r := createMessage s chatId senderId content replyToId t
        (r.1, .ok r.2)

/-- DatabaseStorage.deleteMessage: remove the rows with the given id. -/
def deleteMessage (s : State) (mid : Nat) : State :=
  { s with messages := s.messages.filter (fun m => !(m.id == mid)) }

/-- The user-facing delete-message route handler (DELETE on a message): 403
when the message is missing or the requester is not the sender, otherwise
delete.  The requester's role is never consulted on this route. -/
def deleteMessageRoute (s : State) (mid requesterId : Nat) : State × Except ApiError Unit :=
  match getMessageById s mid with
  | none => (s, .error .accessDenied)
  | some m =>
      if !(m.senderId == requesterId) then (s, .error .accessDenied)
      else (deleteMessage s mid, .ok ())

/-- A chat decorated the way the listing operations return it: the chat row,
the ids of the participants whose accounts exist, the most recent message,
and the unread count the backend reports. -/
structure ChatWithParticipants where
  chat : Chat
  participantDetails : List Nat
  lastMessage : Option Message
  unreadCount : Nat
deriving DecidableEq, Repr

/-- The last-message scan inside MemoryStorage.getChatWithParticipants: walk
the messages store, keeping the latest message of the chat whose sender still
exists. -/
def lastMessageOf (s : State) (chatId : Nat) : Option Message :=
  s.messages.foldl (fun acc m =>
    if m.chatId == chatId &&
        (match acc with | none => true | some lm => decide (lm.createdAt < m.createdAt)) &&
        userExists s m.senderId then
      some m
    else acc) none

/-- MemoryStorage.getChatWithParticipants: decorate the chat with participant
details and last message; the unread count is the hard-coded 0 of the source
(its computation is left as a to-do there). -/
def getChatWithParticipants (s : State) (chatId : Nat) : Option ChatWithParticipants :=
  (getChat s chatId).map (fun c =>
    { chat := c,
      participantDetails := c.participants.filter (fun p => userExists s p),
      lastMessage := lastMessageOf s chatId,
      unreadCount := 0 })

/-- MemoryStorage.getGlobalRoomsInternal, also the shape of
DatabaseStorage.getGlobalRooms: every public global room, decorated; both
backends attach a fixed unread count of 0 to every room. -/
def getGlobalRooms (s : State) (_uid : Nat) : List ChatWithParticipants :=
  (s.chats.filter (fun c => c.isGlobalRoom && c.isPublic)).filterMap
    (fun c => getChatWithParticipants s c.id)

/-- The user-id extraction of the unread-count query in
DatabaseStorage.getUserChats.  The query applies jsonb_array_elements_text to
readBy -> 'userId'; readBy is a jsonb array of objects, so the field access
on the array yields SQL NULL and the extracted set of user ids is empty for
every row. -/
def readUserIdsOfJson (_rs : List ReadReceipt) : List Nat := []

/-- The per-chat unread count of DatabaseStorage.getUserChats: count the
messages of the chat for which the requesting user is not among the extracted
reader ids.  No condition on the sender id appears in the query. -/
def dbUnreadCount (s : State) (chatId uid : Nat) : Nat :=
  (s.messages.filter (fun m =>
    m.chatId == chatId && !(readUserIdsOfJson m.readBy).contains uid)).length

/-- Stable insertion used to render the JavaScript stable sort with the
comparator on createdAt, newest first: a message moves past every already
placed message whose timestamp is at least its own. -/
def insertDesc (m : Message) : List Message → List Message
  | [] => [m]
  | x :: xs => if m.createdAt ≤ x.createdAt then x :: insertDesc m xs else m :: x :: xs

/-- The stable descending-by-createdAt sort of MemoryStorage.getChatMessages
(Array.prototype.sort is stable, so any stable sort with the same comparator
produces the identical list). -/
def sortByCreatedDesc (l : List Message) : List Message :=
  l.foldl (fun acc m => insertDesc m acc) []

/-- The collection-and-sort stage of MemoryStorage.getChatMessages: the
chat's messages whose sender still exists, sorted newest first. -/
def sortedChatMessages (s : State) (chatId : Nat) : List Message :=
  sortByCreatedDesc (s.messages.filter (fun m => m.chatId == chatId && userExists s m.senderId))

/-- MemoryStorage.getChatMessages: collect the chat's messages whose sender
exists, sort newest first by createdAt, then apply the before cursor (slice
from its index when positive) and the limit.  The sender and reply-to
decoration the source attaches does not affect membership or order and is
omitted. -/
def getChatMessages (s : State) (chatId _uid : Nat) (limit : Nat) (before : Option Nat) :
    List Message :=
  match before with
  | some b =>
      match (sortedChatMessages s chatId).findIdx? (fun m => m.id == b) with
      | some i =>
          if 0 < i then ((sortedChatMessages s chatId).drop i).take limit
          else (sortedChatMessages s chatId).take limit
      | none => (sortedChatMessages s chatId).take limit
  | none => (sortedChatMessages s chatId).take limit

/-- deleteUser of both backends: remove the user from every chat's
participant array, delete every message the user sent, and delete the user
row.  The chat rows themselves are kept. -/
def deleteUser (s : State) (uid : Nat) : State :=
  { s with
    users := s.users.filter (fun u => !(u.id == uid)),
    chats := s.chats.map (fun c =>
      { c with participants := c.participants.filter (fun p => !(p == uid)) }),
    messages := s.messages.filter (fun m => !(m.senderId == uid)) }

/-- A chat whose participant set (as a set) is the unordered pair of the two
given users and which is neither a group nor a global room: the shape the
direct-chat uniqueness statement quantifies over. -/
def hasPairSet (u1 u2 : Nat) (c : Chat) : Bool :=
  !c.isGroup && !c.isGlobalRoom && c.participants.contains u1 &&
    c.participants.contains u2 && c.participants.all (fun x => x == u1 || x == u2)

/- Concrete stores used to instantiate the theorems below. -/

/-- The freshly initialized empty store. -/
def s0 : State :=
  { users := [], chats := [], messages := [], chatIdCounter := 1, messageIdCounter := 1 }

/-- A group chat whose participant array already has maxMembers entries. -/
def chatFull : Chat :=
  { id := 1, isGroup := true, isGlobalRoom := false, maxMembers := 2,
    isPublic := false, createdBy := 10, participants := [10, 11], createdAt := 0, updatedAt := 0 }

/-- A store holding only the full chat. -/
def sFull : State :=
  { users := [], chats := [chatFull], messages := [], chatIdCounter := 2, messageIdCounter := 1 }

/-- The direct chat between users 1 and 2. -/
def directChat12 : Chat :=
  { id := 1, isGroup := false, isGlobalRoom := false, maxMembers := 2,
    isPublic := false, createdBy := 1, participants := [1, 2], createdAt := 0, updatedAt := 0 }

/-- Two ordinary users and their direct chat, no messages yet. -/
def sPair : State :=
  { users := [⟨1, .user⟩, ⟨2, .user⟩], chats := [directChat12], messages := [],
    chatIdCounter := 2, messageIdCounter := 1 }

/-- The same store after user 1 appends one message to the direct chat. -/
def sPairMsg : State := (memCreateMessage sPair 1 1 none none 7).1

/-- A text-free message of chat 1 sent by user 1 with the given id and time. -/
def msgAt (i t : Nat) : Message :=
  { id := i, chatId := 1, senderId := 1, content := none, replyToId := none,
    readBy := [], createdAt := t }

/-- A small private group chat. -/
def groupChat1 : Chat :=
  { id := 1, isGroup := true, isGlobalRoom := false, maxMembers := 10,
    isPublic := false, createdBy := 1, participants := [1], createdAt := 0, updatedAt := 0 }

/-- One user, one group chat, three messages appended in sequence at strictly
increasing times. -/
def sSeq : State :=
  { users := [⟨1, .user⟩], chats := [groupChat1],
    messages := [msgAt 1 1, msgAt 2 2, msgAt 3 3], chatIdCounter := 2, messageIdCounter := 4 }

/-- A store with an ordinary sender (user 1, one message) and a moderator
(user 2) who is not the sender. -/
def sMod : State :=
  { users := [⟨1, .user⟩, ⟨2, .moderator⟩], chats := [], messages := [msgAt 1 1],
    chatIdCounter := 1, messageIdCounter := 2 }

/-- A public global room. -/
def globalRoom : Chat :=
  { id := 1, isGroup := true, isGlobalRoom := true, maxMembers := 1000,
    isPublic := true, createdBy := 9, participants := [], createdAt := 0, updatedAt := 0 }

/-- A store holding one user and one public global room. -/
def sGlobal : State :=
  { users := [⟨1, .user⟩], chats := [globalRoom], messages := [],
    chatIdCounter := 2, messageIdCounter := 1 }

/-- The decorated row getGlobalRooms returns for the room of sGlobal. -/
def globalRoomRow : ChatWithParticipants :=
  { chat := globalRoom, participantDetails := [], lastMessage := none, unreadCount := 0 }

/- Helper lemmas shared by several theorems. -/

/-- Marking a message as read for a user a second time changes nothing: the
first application either left the message alone or appended a receipt that
the second application's find will locate. -/
theorem markOne_idem (chatId uid t1 t2 : Nat) (m : Message) :
    markOne chatId uid t2 (markOne chatId uid t1 m) = markOne chatId uid t1 m := by
  unfold markOne
  by_cases hchat : (m.chatId == chatId) = true
  · by_cases hread : ((m.readBy.find? (fun r => r.userId == uid)).isNone) = true
    · rw [Option.isNone_iff_eq_none] at hread
      have hfind :
          ((m.readBy ++ [({ userId := uid, readAt := t1 } : ReadReceipt)]).find?
            (fun r => r.userId == uid)) = some { userId := uid, readAt := t1 } := by
        rw [List.find?_append, hread]
        simp
      simp [hchat, hread, hfind]
    · simp [hchat, hread]
  · simp [hchat]

/-- C4: marking a chat read twice in a row is idempotent: the second call
returns exactly the store the first call produced (whatever wall-clock time
the second call observes), so no stored read state changes and every derived
unread count is unchanged. -/
theorem markChatMessagesAsRead_idempotent (s : State) (chatId uid t1 t2 : Nat) :
    markChatMessagesAsRead (markChatMessagesAsRead s chatId uid t1) chatId uid t2 =
      markChatMessagesAsRead s chatId uid t1 := by
  unfold markChatMessagesAsRead
  simp only [List.map_map]
  congr 1
  exact List.map_congr_left (fun m _ => markOne_idem chatId uid t1 t2 m)

/-- C8: whenever the send-message route fails, with an unknown chat id or a
sender who is neither a participant nor posting to a global room, the store
is returned untouched: in particular no chat's updatedAt is bumped, so a
failed append never partially commits. -/
theorem sendMessageRoute_error_preserves_state (s : State) (chatId senderId : Nat)
    (content : Option String) (replyToId : Option Nat) (t : Nat) (e : ApiError)
    (h : (sendMessageRoute s chatId senderId content replyToId t).2 = .error e) :
    (sendMessageRoute s chatId senderId content replyToId t).1 = s := by
  unfold sendMessageRoute at h ⊢
  split
  · rfl
  · rename_i c heq
    simp only [heq] at h
    by_cases hacc : (!c.isGlobalRoom && !c.participants.contains senderId) = true
    · rw [if_pos hacc]
    · rw [if_neg hacc] at h
      exact absurd h (by simp)

/-- Closed instance of the C8 theorem: a non-participant posting to the
private group chat of sSeq is rejected and the store is unchanged. -/
theorem sendMessageRoute_error_preserves_state_w :
    (sendMessageRoute sSeq 1 99 none none 5).2 = .error .accessDenied ∧
    (sendMessageRoute sSeq 1 99 none none 5).1 = sSeq :=
  ⟨rfl, sendMessageRoute_error_preserves_state sSeq 1 99 none none 5 .accessDenied rfl⟩

/-- C9: every row the global-room listing returns carries an unread count of
0, whatever the store contents and whoever asks: both backends attach the
constant 0 instead of a per-caller computation. -/
theorem getGlobalRooms_unreadCount_zero (s : State) (uid : Nat) (r : ChatWithParticipants)
    (h : r ∈ getGlobalRooms s uid) : r.unreadCount = 0 := by
  unfold getGlobalRooms at h
  rw [List.mem_filterMap] at h
  obtain ⟨c, _, hc⟩ := h
  unfold getChatWithParticipants at hc
  cases hg : getChat s c.id with
  | none => rw [hg] at hc; simp at hc
  | some d =>
      rw [hg] at hc
      simp only [Option.map_some', Option.some.injEq] at hc
      rw [← hc]

/-- Closed instance of the C9 theorem at the store holding one public global
room. -/
theorem getGlobalRooms_unreadCount_zero_w :
    globalRoomRow ∈ getGlobalRooms sGlobal 1 ∧ globalRoomRow.unreadCount = 0 :=
  ⟨by decide, getGlobalRooms_unreadCount_zero sGlobal 1 globalRoomRow (by decide)⟩

/-- C10: deleteUser removes every message the user sent, removes the user
from every chat's participant array, and keeps every chat row (the chat ids
of the store are unchanged, direct chats included). -/
theorem deleteUser_cascade (s : State) (uid : Nat) :
    ((deleteUser s uid).messages.all (fun m => !(m.senderId == uid))) = true ∧
    ((deleteUser s uid).chats.all (fun c => !(c.participants.contains uid))) = true ∧
    (deleteUser s uid).chats.map (fun c => c.id) = s.chats.map (fun c => c.id) := by
  refine ⟨?_, ?_, ?_⟩
  · rw [List.all_eq_true]
    intro m hm
    unfold deleteUser at hm
    simp only [List.mem_filter] at hm
    exact hm.2
  · rw [List.all_eq_true]
    intro c hc
    unfold deleteUser at hc
    simp only [List.mem_map] at hc
    obtain ⟨d, _, rfl⟩ := hc
    cases hcon : (d.participants.filter (fun p => !(p == uid))).contains uid with
    | false => rfl
    | true =>
        rw [List.contains_iff_exists_mem_beq] at hcon
        obtain ⟨p, hp, hbeq⟩ := hcon
        have huid : uid = p := beq_iff_eq.mp hbeq
        rw [List.mem_filter] at hp
        rw [← huid] at hp
        simpa using hp.2
  · unfold deleteUser
    rw [List.map_map]
    exact List.map_congr_left (fun d _ => rfl)

/-- C2 (code bug): after user 1 appends one message to the direct chat of
users 1 and 2, MemoryStorage still reports an unread count of 0 (its
computation is a hard-coded 0), although user 2 has one unread message from
another sender, and the DatabaseStorage unread query reports 1 for user 1
although a user's own messages must never count as unread for themselves. -/
theorem unread_count_ignores_sender_and_reader :
    (getChatWithParticipants sPairMsg 1).map (fun r => r.unreadCount) = some 0 ∧
    dbUnreadCount sPair 1 1 = 0 ∧ dbUnreadCount sPairMsg 1 1 = 1 := by decide

/-- C3 counterexample: the chat of sFull is at its member cap, yet adding the
non-member 12 neither fails nor leaves the participant array unchanged; the
array grows to three entries. -/
theorem joinChat_at_cap_mutates :
    chatFull.participants.length = chatFull.maxMembers ∧
    (joinChat sFull 1 12 5).chats.map (fun c => c.participants) = [[10, 11, 12]] := by decide

/-- C5 counterexample: messages 1, 2, 3 were appended to chat 1 of sSeq in
that order at increasing timestamps, yet getChatMessages returns them newest
first, not in append order. -/
theorem getChatMessages_returns_newest_first :
    (getChatMessages sSeq 1 1 50 none).map (fun m => m.id) = [3, 2, 1] ∧
    ([3, 2, 1] : List Nat) ≠ [1, 2, 3] := by decide

/-- C6 counterexample: calling getOrCreateDirectChat with the same user on
both sides does not fail; on the empty store it creates and returns a chat
whose participant array is the degenerate pair of that user. -/
theorem getOrCreateDirectChat_sameUser_creates :
    (getOrCreateDirectChat s0 5 5 0).2.participants = [5, 5] ∧
    (getOrCreateDirectChat s0 5 5 0).1.chats.length = s0.chats.length + 1 := by decide

/-- C7 counterexample: in sMod user 2 holds the moderator role and is not
the sender of message 1, yet the delete-message route rejects the request
with the access-denied status and leaves the store unchanged. -/
theorem deleteMessageRoute_denies_moderator :
    (sMod.users.find? (fun u => u.id == 2)).map (fun u => u.role) = some Role.moderator ∧
    (getMessageById sMod 1).map (fun m => m.senderId) = some 1 ∧
    deleteMessageRoute sMod 1 2 = (sMod, .error .accessDenied) :=
  ⟨rfl, rfl, rfl⟩

/-- The direct-chat lookup predicate is symmetric in its two users: the
conjunction merely swaps the two containment tests. -/
theorem isDirectCandidate_comm (u1 u2 : Nat) (c : Chat) :
    isDirectCandidate u2 u1 c = isDirectCandidate u1 u2 c := by
  unfold isDirectCandidate
  cases c.isGroup <;> cases c.isGlobalRoom <;>
    cases h2 : c.participants.length == 2 <;>
    cases h3 : c.participants.contains u1 <;>
    cases h4 : c.participants.contains u2 <;> simp [*]

/-- A chat matched by the direct-chat lookup for two distinct users has
participant set exactly that unordered pair. -/
theorem hasPairSet_of_candidate {u1 u2 : Nat} {c : Chat} (hne : u1 ≠ u2)
    (h : isDirectCandidate u1 u2 c = true) : hasPairSet u1 u2 c = true := by
  unfold isDirectCandidate at h
  unfold hasPairSet
  simp only [Bool.and_eq_true] at h ⊢
  obtain ⟨⟨⟨⟨hg, hgl⟩, hlen⟩, hc1⟩, hc2⟩ := h
  refine ⟨⟨⟨⟨hg, hgl⟩, hc1⟩, hc2⟩, ?_⟩
  obtain ⟨a, b, hab⟩ := List.length_eq_two.mp (beq_iff_eq.mp hlen)
  rw [hab] at hc1 hc2 ⊢
  simp only [List.contains_cons, List.contains_nil, Bool.or_false, Bool.or_eq_true,
    beq_iff_eq] at hc1 hc2
  simp only [List.all_cons, List.all_nil, Bool.and_true, Bool.and_eq_true, Bool.or_eq_true,
    beq_iff_eq]
  rcases hc1 with h1 | h1 <;> rcases hc2 with h2 | h2 <;> subst_vars <;> tauto

/-- A non-group, non-global chat whose participant set is the pair and whose
participant array has two entries is matched by the direct-chat lookup. -/
theorem candidate_of_hasPairSet {u1 u2 : Nat} {c : Chat}
    (hlen : c.participants.length = 2) (h : hasPairSet u1 u2 c = true) :
    isDirectCandidate u1 u2 c = true := by
  unfold hasPairSet at h
  unfold isDirectCandidate
  simp only [Bool.and_eq_true] at h ⊢
  obtain ⟨⟨⟨⟨hg, hgl⟩, hc1⟩, hc2⟩, _⟩ := h
  exact ⟨⟨⟨⟨hg, hgl⟩, by simp [hlen]⟩, hc1⟩, hc2⟩

/-- C1: for distinct users, under the direct-chat invariant (every direct
chat has a two-entry participant array and at most one stored chat matches
the pair), calling getOrCreateDirectChat in one order and then in the other
returns the same chat both times, and afterwards exactly one non-group,
non-global chat has participant set equal to the unordered pair. -/
theorem getOrCreateDirectChat_pair_unique (s : State) (u1 u2 t1 t2 : Nat)
    (hne : u1 ≠ u2)
    (hlen : ∀ c ∈ s.chats, (!c.isGroup && !c.isGlobalRoom) = true → c.participants.length = 2)
    (huniq : s.chats.countP (isDirectCandidate u1 u2) ≤ 1) :
    (getOrCreateDirectChat (getOrCreateDirectChat s u1 u2 t1).1 u2 u1 t2).2 =
      (getOrCreateDirectChat s u1 u2 t1).2 ∧
    (getOrCreateDirectChat (getOrCreateDirectChat s u1 u2 t1).1 u2 u1 t2).1.chats.countP
      (hasPairSet u1 u2) = 1 := by
  have hfun : (isDirectCandidate u2 u1) = (isDirectCandidate u1 u2) :=
    funext (fun c => isDirectCandidate_comm u1 u2 c)
  have hcong : ∀ c ∈ s.chats, hasPairSet u1 u2 c = true ↔ isDirectCandidate u1 u2 c = true := by
    intro c hc
    constructor
    · intro hp
      refine candidate_of_hasPairSet (hlen c hc ?_) hp
      unfold hasPairSet at hp
      simp only [Bool.and_eq_true] at hp
      rw [Bool.and_eq_true]
      exact ⟨hp.1.1.1.1, hp.1.1.1.2⟩
    · intro hp
      exact hasPairSet_of_candidate hne hp
  cases hf : s.chats.find? (isDirectCandidate u1 u2) with
  | some c =>
      have hc : c ∈ s.chats := List.mem_of_find?_eq_some hf
      have hpc : isDirectCandidate u1 u2 c = true := List.find?_some hf
      simp only [getOrCreateDirectChat, hfun, hf]
      refine ⟨trivial, ?_⟩
      rw [List.countP_congr hcong]
      have hpos : 0 < s.chats.countP (isDirectCandidate u1 u2) :=
        List.countP_pos_iff.mpr ⟨c, hc, hpc⟩
      omega
  | none =>
      have hnone : ∀ c ∈ s.chats, ¬ isDirectCandidate u1 u2 c = true :=
        List.find?_eq_none.mp hf
      have hnew : isDirectCandidate u1 u2
          { id := s.chatIdCounter, isGroup := false, isGlobalRoom := false, maxMembers := 2,
            isPublic := false, createdBy := u1, participants := [u1, u2], createdAt := t1,
            updatedAt := t1 } = true := by
        simp [isDirectCandidate]
      have hnewPair : hasPairSet u1 u2
          { id := s.chatIdCounter, isGroup := false, isGlobalRoom := false, maxMembers := 2,
            isPublic := false, createdBy := u1, participants := [u1, u2], createdAt := t1,
            updatedAt := t1 } = true := hasPairSet_of_candidate hne hnew
      simp only [getOrCreateDirectChat, hfun, hf]
      rw [List.find?_append, hf]
      simp only [Option.none_or]
      rw [List.find?_cons_of_pos _ hnew]
      refine ⟨rfl, ?_⟩
      rw [List.countP_append, List.countP_congr hcong]
      have hzero : s.chats.countP (isDirectCandidate u1 u2) = 0 :=
        List.countP_eq_zero.mpr hnone
      rw [hzero]
      simp [List.countP_cons, hnewPair]

/-- Closed instance of the C1 theorem: both call orders on the empty store
return the created chat and exactly one pair chat exists afterwards. -/
theorem getOrCreateDirectChat_pair_unique_w :
    (1 : Nat) ≠ 2 ∧ s0.chats.countP (isDirectCandidate 1 2) ≤ 1 ∧
    ((getOrCreateDirectChat (getOrCreateDirectChat s0 1 2 10).1 2 1 11).2 =
        (getOrCreateDirectChat s0 1 2 10).2 ∧
      (getOrCreateDirectChat (getOrCreateDirectChat s0 1 2 10).1 2 1 11).1.chats.countP
        (hasPairSet 1 2) = 1) :=
  ⟨by decide, by decide, getOrCreateDirectChat_pair_unique s0 1 2 10 11 (by decide)
    (by intro c hc _; simp [s0] at hc) (by decide)⟩

/-- C3 (amended): addParticipant performs no capacity check: when the chat
exists and the user is not yet a member, the user is appended to the
participant array even when that array already holds maxMembers entries, and
no error is produced. -/
theorem joinChat_ignores_cap (s : State) (chatId uid t : Nat) (c : Chat)
    (hfind : getChat s chatId = some c)
    (hmem : c.participants.contains uid = false)
    (hcap : c.participants.length = c.maxMembers) :
    ∃ c' ∈ (joinChat s chatId uid t).chats,
      c'.id = c.id ∧ c'.participants = c.participants ++ [uid] := by
  have hfind' : s.chats.find? (fun d => d.id == chatId) = some c := hfind
  have hc : c ∈ s.chats := List.mem_of_find?_eq_some hfind'
  have hid : (c.id == chatId) = true := by simpa using List.find?_some hfind'
  unfold joinChat
  simp only [hfind, hmem, Bool.false_eq_true, if_false]
  refine ⟨{ c with participants := c.participants ++ [uid], updatedAt := t }, ?_, rfl, rfl⟩
  refine List.mem_map.mpr ⟨c, hc, ?_⟩
  rw [hid]
  simp

/-- Closed instance of the C3 amended theorem at the full chat of sFull. -/
theorem joinChat_ignores_cap_w :
    getChat sFull 1 = some chatFull ∧
    chatFull.participants.contains 12 = false ∧
    chatFull.participants.length = chatFull.maxMembers ∧
    ∃ c' ∈ (joinChat sFull 1 12 5).chats,
      c'.id = chatFull.id ∧ c'.participants = chatFull.participants ++ [12] :=
  ⟨rfl, rfl, rfl, joinChat_ignores_cap sFull 1 12 5 chatFull rfl rfl rfl⟩

/-- C6 (amended): getOrCreateDirectChat performs no same-user validation:
when no stored non-group, non-global two-participant chat contains the user,
the call with the same user on both sides succeeds and creates a chat whose
participant array is the degenerate pair of that user. -/
theorem getOrCreateDirectChat_sameUser_no_validation (s : State) (u t : Nat)
    (h : s.chats.find? (isDirectCandidate u u) = none) :
    (getOrCreateDirectChat s u u t).2.participants = [u, u] ∧
    (getOrCreateDirectChat s u u t).1.chats.length = s.chats.length + 1 := by
  unfold getOrCreateDirectChat
  simp only [h]
  simp

/-- Closed instance of the C6 amended theorem on the empty store. -/
theorem getOrCreateDirectChat_sameUser_no_validation_w :
    s0.chats.find? (isDirectCandidate 5 5) = none ∧
    ((getOrCreateDirectChat s0 5 5 0).2.participants = [5, 5] ∧
      (getOrCreateDirectChat s0 5 5 0).1.chats.length = s0.chats.length + 1) :=
  ⟨rfl, getOrCreateDirectChat_sameUser_no_validation s0 5 0 rfl⟩

/-- C7 (amended): the user-facing delete-message route succeeds exactly for
the original sender, deleting the message; any other requester, whatever
role they hold, receives the access-denied status and the store is returned
unchanged. -/
theorem deleteMessageRoute_sender_only (s : State) (mid rid : Nat) (m : Message)
    (h : getMessageById s mid = some m) :
    (m.senderId = rid →
      (deleteMessageRoute s mid rid).2 = .ok () ∧
      ∀ m' ∈ (deleteMessageRoute s mid rid).1.messages, m'.id ≠ mid) ∧
    (m.senderId ≠ rid → deleteMessageRoute s mid rid = (s, .error .accessDenied)) := by
  unfold deleteMessageRoute
  simp only [h]
  constructor
  · intro he
    have hbeq : (m.senderId == rid) = true := beq_iff_eq.mpr he
    rw [hbeq]
    simp only [Bool.not_true, Bool.false_eq_true, if_false]
    refine ⟨trivial, ?_⟩
    intro m' hm'
    unfold deleteMessage at hm'
    simp only [List.mem_filter] at hm'
    intro hid
    rw [hid] at hm'
    simpa using hm'.2
  · intro hne
    have hbeq : (m.senderId == rid) = false := by simp [hne]
    rw [hbeq]
    simp

/-- Closed instance of the C7 amended theorem: the sender of message 1 in
sMod may delete it, any non-sender is denied. -/
theorem deleteMessageRoute_sender_only_w :
    getMessageById sMod 1 = some (msgAt 1 1) ∧
    (((msgAt 1 1).senderId = 1 →
        (deleteMessageRoute sMod 1 1).2 = .ok () ∧
        ∀ m' ∈ (deleteMessageRoute sMod 1 1).1.messages, m'.id ≠ 1) ∧
      ((msgAt 1 1).senderId ≠ 1 → deleteMessageRoute sMod 1 1 = (sMod, .error .accessDenied))) :=
  ⟨rfl, deleteMessageRoute_sender_only sMod 1 1 (msgAt 1 1) rfl⟩

/-- Membership in the stable descending insertion is membership in the
inserted element or the old list. -/
theorem mem_insertDesc {m x : Message} {l : List Message} :
    x ∈ insertDesc m l ↔ x = m ∨ x ∈ l := by
  induction l with
  | nil => simp [insertDesc]
  | cons y ys ih =>
      unfold insertDesc
      by_cases h : m.createdAt ≤ y.createdAt
      · rw [if_pos h]
        simp only [List.mem_cons, ih]
        tauto
      · rw [if_neg h]
        simp only [List.mem_cons]

/-- The stable descending insertion preserves the newest-first ordering. -/
theorem pairwise_insertDesc {m : Message} {l : List Message}
    (hl : List.Pairwise (fun a b => b.createdAt ≤ a.createdAt) l) :
    List.Pairwise (fun a b => b.createdAt ≤ a.createdAt) (insertDesc m l) := by
  induction l with
  | nil => simp [insertDesc]
  | cons y ys ih =>
      rw [List.pairwise_cons] at hl
      obtain ⟨hy, hys⟩ := hl
      unfold insertDesc
      by_cases h : m.createdAt ≤ y.createdAt
      · rw [if_pos h]
        rw [List.pairwise_cons]
        refine ⟨?_, ih hys⟩
        intro x hx
        rcases mem_insertDesc.mp hx with rfl | hx
        · exact h
        · exact hy x hx
      · rw [if_neg h]
        rw [List.pairwise_cons]
        refine ⟨?_, List.pairwise_cons.mpr ⟨hy, hys⟩⟩
        intro x hx
        rcases List.mem_cons.mp hx with rfl | hx
        · omega
        · have := hy x hx
          omega

/-- The sort stage of getChatMessages produces a newest-first list. -/
theorem pairwise_sortByCreatedDesc (l : List Message) :
    List.Pairwise (fun a b => b.createdAt ≤ a.createdAt) (sortByCreatedDesc l) := by
  unfold sortByCreatedDesc
  suffices h : ∀ acc, List.Pairwise (fun a b : Message => b.createdAt ≤ a.createdAt) acc →
      List.Pairwise (fun a b : Message => b.createdAt ≤ a.createdAt)
        (l.foldl (fun acc m => insertDesc m acc) acc) by
    exact h [] List.Pairwise.nil
  induction l with
  | nil => intro acc hacc; simpa using hacc
  | cons x xs ih =>
      intro acc hacc
      simp only [List.foldl_cons]
      exact ih _ (pairwise_insertDesc hacc)

/-- C5 (amended): every page getChatMessages returns is ordered newest first
by createdAt alone (each element's timestamp is at least every later
element's); the message id is not part of the sort key and the order is the
reverse of append order, not append order. -/
theorem getChatMessages_pairwise_desc (s : State) (chatId uid limit : Nat)
    (before : Option Nat) :
    List.Pairwise (fun a b => b.createdAt ≤ a.createdAt)
      (getChatMessages s chatId uid limit before) := by
  have hs : List.Pairwise (fun a b : Message => b.createdAt ≤ a.createdAt)
      (sortedChatMessages s chatId) := pairwise_sortByCreatedDesc _
  unfold getChatMessages
  split
  · split
    · split
      · exact List.Pairwise.sublist
          ((List.take_sublist _ _).trans (List.drop_sublist _ _)) hs
      · exact List.Pairwise.sublist (List.take_sublist _ _) hs
    · exact List.Pairwise.sublist (List.take_sublist _ _) hs
  · exact List.Pairwise.sublist (List.take_sublist _ _) hs

end ChatGroove
